import Mathlib

/-!
Ticket booking engine: formal model.

A shallow embedding of the ticket-booking backend
(`backend/src/services/bookingService.ts`, `backend/src/routes/bookingRoutes.ts`,
`backend/src/db/migrate.ts`) and proofs of the specification's claims about it.

The PostgreSQL database is modelled as two tables held in a `DB` record:
`tickets` (rows of the `tickets` table, kept in `id` order only via the
explicit `ORDER BY` in queries) and `bookings` (rows of the `bookings`
table, which carries UNIQUE constraints on both `ticket_id` and
`booking_reference`, per the migration).  A SQL transaction
is modelled by threading a working copy of the `DB`: `COMMIT` returns the
working copy as the new durable state, `ROLLBACK` returns the original
state.  Rows claimed by concurrent in-flight transactions (the targets of
`FOR UPDATE SKIP LOCKED`) are modelled as a set `locked` of ticket ids that
the selecting query skips.  `DECIMAL` prices are modelled as `Nat`, since
every tier price in the system (100.00 / 50.00 / 10.00) is integral.
Non-deterministic inputs of a call (`Math.random()` in the booking
reference and in `simulatePayment`, the `SERIAL` id counter of the
`bookings` table) are passed as explicit parameters.
-/

/-- The ticket tiers: the closed enumeration `('VIP', 'Front Row', 'GA')`
from the `CHECK` constraint on `tickets.tier`. -/
inductive Tier where
  | VIP
  | FrontRow
  | GA
deriving DecidableEq, Repr

/-- A row of the `tickets` table. -/
structure Ticket where
  id : Nat
  tier : Tier
  price : Nat
  available : Bool
deriving DecidableEq, Repr

/-- The `payment_status` column: `CHECK (payment_status IN ('pending', 'success', 'failed'))`. -/
inductive PaymentStatus where
  | pending
  | success
  | failed
deriving DecidableEq, Repr

/-- A row of the `bookings` table. -/
structure Booking where
  id : Nat
  ticket_id : Nat
  user_id : String
  quantity : Nat
  total_price : Nat
  payment_status : PaymentStatus
  booking_reference : String
deriving DecidableEq, Repr

/-- The durable database state: the two tables. -/
structure DB where
  tickets : List Ticket
  bookings : List Booking
deriving DecidableEq, Repr

/-- A validated booking request (the `BookingRequest` type used by
`createBooking`). -/
structure BookingRequest where
  tier : Tier
  quantity : Nat
  userId : String
deriving DecidableEq, Repr

/-- The errors thrown by `createBooking`, by error message:
`insufficientTickets` = "Insufficient tickets available. Requested: _, Available: _",
`concurrentConflict` = "Ticket was already booked by another user. Please try again.",
`paymentFailed` = "Payment processing failed. Booking cancelled.". -/
inductive BookingError where
  | insufficientTickets (requested : Nat) (available : Nat)
  | concurrentConflict
  | paymentFailed
deriving DecidableEq, Repr

/-- The observable database actions of one `createBooking` call, in program
order: `BEGIN`, the `SELECT ... FOR UPDATE SKIP LOCKED`, the generation of
the booking reference, each `INSERT INTO bookings` / `UPDATE tickets SET
available = false` pair, the `simulatePayment()` call, the batch
`UPDATE bookings SET payment_status = 'success'`, and `COMMIT`/`ROLLBACK`. -/
inductive Event where
  | beginTx
  | selectTickets (tier : Tier) (quantity : Nat) (found : Nat)
  | genReference (ref : String)
  | insertBooking (ticketId : Nat) (ref : String)
  | markUnavailable (ticketId : Nat)
  | payment (ok : Bool)
  | markBatchSuccess (ref : String)
  | commitTx
  | rollbackTx
deriving DecidableEq, Repr

/-- The `ORDER BY id` ordering of the `tickets` table. -/
def idLe (a b : Ticket) : Prop := a.id ≤ b.id

instance : DecidableRel idLe := fun a b => Nat.decLe a.id b.id

instance : IsTotal Ticket idLe := ⟨fun a b => Nat.le_total a.id b.id⟩

instance : IsTrans Ticket idLe := ⟨fun _ _ _ h h' => Nat.le_trans h h'⟩

/-- The `WHERE` clause of `getAvailableTickets`: `tier = $1 AND available =
true`, together with the `SKIP LOCKED` behaviour (rows claimed by a
concurrent in-flight transaction are skipped). -/
def availMatch (locked : List Nat) (tier : Tier) (t : Ticket) : Bool :=
  t.tier == tier && t.available && !(locked.contains t.id)

/-- The query of `getAvailableTickets(client, tier, quantity)`:
`SELECT ... FROM tickets WHERE tier = $1 AND available = true ORDER BY id
LIMIT $2 FOR UPDATE SKIP LOCKED`. -/
def getAvailableTickets (tickets : List Ticket) (locked : List Nat)
    (tier : Tier) (quantity : Nat) : List Ticket :=
  (List.insertionSort idLe (tickets.filter (availMatch locked tier))).take quantity

/-- The statement `UPDATE tickets SET available = false WHERE id = $1`. -/
def setUnavailable (tickets : List Ticket) (tid : Nat) : List Ticket :=
  tickets.map fun t => if t.id == tid then { t with available := false } else t

/-- Whether a `bookings` row for this `ticket_id` exists: the condition
under which an `INSERT INTO bookings` violates the UNIQUE constraint on
`ticket_id` and fails with PostgreSQL error code 23505. -/
def hasBookingFor (bookings : List Booking) (tid : Nat) : Bool :=
  bookings.any fun b => b.ticket_id == tid

/-- Whether a `bookings` row carrying this `booking_reference` exists: the
condition under which an `INSERT INTO bookings` violates the UNIQUE
constraint on `booking_reference` (declared in the migration) and fails
with PostgreSQL error code 23505.  PostgreSQL checks column UNIQUE
constraints per row immediately, also against rows inserted earlier in the
same transaction. -/
def hasReference (bookings : List Booking) (ref : String) : Bool :=
  bookings.any fun b => b.booking_reference == ref

/-- The statement `UPDATE bookings SET payment_status = 'success' WHERE booking_reference = $1`. -/
def markBatchSuccess (bookings : List Booking) (ref : String) : List Booking :=
  bookings.map fun b =>
    if b.booking_reference == ref then { b with payment_status := .success } else b

/-- The `for (const ticket of tickets)` loop of `createBooking`: for each
selected ticket, `INSERT` a pending `bookings` row (with `quantity` 1 and
`total_price` the ticket's price) and flip the ticket to unavailable,
against the working transaction state `work`.  A UNIQUE-constraint
violation — an existing row for the same `ticket_id`, or an existing row
(committed, or inserted earlier in this very loop) carrying the same
`booking_reference` — aborts the loop with `none` (the error-code-23505
catch branch).  Returns the events performed, and on success the new
working state and the inserted rows in order. -/
def insertLoop (userId ref : String) :
    List Ticket → DB → Nat → List Event × Option (DB × List Booking)
  | [], work, _ => ([], some (work, []))
  | t :: ts, work, nid =>
    if hasBookingFor work.bookings t.id || hasReference work.bookings ref then
      ([], none)
    else
      match insertLoop userId ref ts
          ⟨setUnavailable work.tickets t.id,
           work.bookings ++ [⟨nid, t.id, userId, 1, t.price, .pending, ref⟩]⟩
          (nid + 1) with
      | (evs, none) =>
        (Event.insertBooking t.id ref :: Event.markUnavailable t.id :: evs, none)
      | (evs, some (work2, bs)) =>
        (Event.insertBooking t.id ref :: Event.markUnavailable t.id :: evs,
         some (work2, ⟨nid, t.id, userId, 1, t.price, .pending, ref⟩ :: bs))

/-- The function `createBooking(request)`, with the call's non-deterministic inputs made
explicit: `ref` is the booking reference built from `Date.now()` and
`Math.random()`, `nid` the next `SERIAL` id of the `bookings` table, `pay`
the outcome of `simulatePayment()`, and `locked` the ticket ids claimed by
concurrent in-flight transactions.  Returns the call's outcome (the
returned bookings or the thrown error), the durable database state after
the call (`COMMIT` publishes the working state; every error path runs
`ROLLBACK`, which discards it), and the trace of database actions. -/
def createBookingTr (db : DB) (locked : List Nat) (req : BookingRequest)
    (ref : String) (nid : Nat) (pay : Bool) :
    Except BookingError (List Booking) × DB × List Event :=
  let tickets := getAvailableTickets db.tickets locked req.tier req.quantity
  let ev0 := [Event.beginTx, Event.selectTickets req.tier req.quantity tickets.length]
  if tickets.length < req.quantity then
    (.error (.insufficientTickets req.quantity tickets.length), db,
     ev0 ++ [Event.rollbackTx])
  else
    match insertLoop req.userId ref tickets db nid with
    | (evs, none) =>
      (.error .concurrentConflict, db,
       ev0 ++ [Event.genReference ref] ++ evs ++ [Event.rollbackTx])
    | (evs, some (work, bs)) =>
      if pay then
        (.ok (bs.map fun b => { b with payment_status := .success }),
         { work with bookings := markBatchSuccess work.bookings ref },
         ev0 ++ [Event.genReference ref] ++ evs ++
           [Event.payment true, Event.markBatchSuccess ref, Event.commitTx])
      else
        (.error .paymentFailed, db,
         ev0 ++ [Event.genReference ref] ++ evs ++
           [Event.payment false, Event.rollbackTx])

instance {ε α : Type} [DecidableEq ε] [DecidableEq α] :
    DecidableEq (Except ε α) := fun x y =>
  match x, y with
  | .error e, .error f => decidable_of_iff (e = f) ⟨fun h => h ▸ rfl, fun h => by injection h⟩
  | .error _, .ok _ => isFalse fun h => by injection h
  | .ok _, .error _ => isFalse fun h => by injection h
  | .ok a, .ok b => decidable_of_iff (a = b) ⟨fun h => h ▸ rfl, fun h => by injection h⟩

/-- The per-tier fixed unit price, as inserted by the migration
(`VIP` 100.00, `Front Row` 50.00, `GA` 10.00) and used as the hard-coded
defaults of `getTicketAvailability`. -/
def tierPrice : Tier → Nat
  | .VIP => 100
  | .FrontRow => 50
  | .GA => 10

/-- One entry of the `getTicketAvailability` result. -/
structure TierAvailability where
  available : Nat
  total : Nat
  price : Nat
deriving DecidableEq, Repr

/-- The aggregate `MAX(price)` over a group of rows (`0` stands for SQL `NULL` on an
empty group, which `getTicketAvailability` never reads). -/
def maxPrice (ts : List Ticket) : Nat :=
  ts.foldr (fun t m => max t.price m) 0

/-- The function `getTicketAvailability()` restricted to one tier: the `GROUP BY tier`
query computes `COUNT(*)`, `SUM(CASE WHEN available = true THEN 1 ELSE 0
END)` and `MAX(price)` for each tier that has rows; a tier with no rows
(no group) falls back to the hard-coded default
`{available: 0, total: 0, price: 100 | 50 | 10}`. -/
def getTicketAvailability (db : DB) (tier : Tier) : TierAvailability :=
  let rows := db.tickets.filter fun t => t.tier == tier
  if rows.isEmpty then
    ⟨0, 0, tierPrice tier⟩
  else
    ⟨(rows.filter fun t => t.available).length, rows.length, maxPrice rows⟩

/-- The `ORDER BY tier, id` ordering of `getAllAvailableTickets`:
`tier` is a `VARCHAR`, so the tier order is the string order
'Front Row' < 'GA' < 'VIP'. -/
def tierRank : Tier → Nat
  | .FrontRow => 0
  | .GA => 1
  | .VIP => 2

/-- Lexicographic (tier-string, id) order on tickets. -/
def tierIdLe (a b : Ticket) : Prop :=
  tierRank a.tier < tierRank b.tier ∨ (tierRank a.tier = tierRank b.tier ∧ a.id ≤ b.id)

instance : DecidableRel tierIdLe := fun a b =>
  inferInstanceAs (Decidable (tierRank a.tier < tierRank b.tier ∨
    (tierRank a.tier = tierRank b.tier ∧ a.id ≤ b.id)))

/-- The function `getAllAvailableTickets()`: `SELECT ... FROM tickets WHERE available =
true ORDER BY tier, id`.  Read-only: takes no lock and returns no new
state. -/
def getAllAvailableTickets (db : DB) : List Ticket :=
  List.insertionSort tierIdLe (db.tickets.filter fun t => t.available)

/-- A raw inbound `POST /api/bookings` body, before validation: `tier` an
arbitrary string, `quantity` an arbitrary JSON number (rational, so that
`z.number().int()` has something to reject), `userId` an arbitrary
string. -/
structure RawRequest where
  tier : String
  quantity : ℚ
  userId : String

/-- The `z.enum(['VIP', 'Front Row', 'GA'])` check. -/
def parseTier (s : String) : Option Tier :=
  if s == "VIP" then some .VIP
  else if s == "Front Row" then some .FrontRow
  else if s == "GA" then some .GA
  else none

/-- The validator `bookingRequestSchema.safeParse`: `tier` must be one of the three
enum values, `quantity` must be an integer (`.int()`) between 1 (`.min(1)`)
and 100 (`.max(100)`), and `userId` a string of length at least 1
(`.min(1)`). -/
def validateRequest (raw : RawRequest) : Option BookingRequest :=
  match parseTier raw.tier with
  | none => none
  | some tier =>
    if raw.quantity.den = 1 ∧ 1 ≤ raw.quantity.num ∧ raw.quantity.num ≤ 100 ∧
        raw.userId ≠ "" then
      some ⟨tier, raw.quantity.num.toNat, raw.userId⟩
    else
      none

/-- An HTTP response, by status code (the bodies carry no further state). -/
structure HttpResponse where
  status : Nat
deriving DecidableEq, Repr

/-- The `router.post('/')` handler: validate the body with
`bookingRequestSchema.safeParse` and answer 400 on failure without touching
the database; otherwise run `createBooking` and map its outcome to a
status: success 201, insufficient tickets 409, already-booked conflict
409, payment failure 402.  Returns the response, the durable state after
the request, and the database actions performed. -/
def handlePost (db : DB) (locked : List Nat) (raw : RawRequest)
    (ref : String) (nid : Nat) (pay : Bool) :
    HttpResponse × DB × List Event :=
  match validateRequest raw with
  | none => (⟨400⟩, db, [])
  | some req =>
    match createBookingTr db locked req ref nid pay with
    | (.ok _, db1, evs) => (⟨201⟩, db1, evs)
    | (.error (.insufficientTickets _ _), db1, evs) => (⟨409⟩, db1, evs)
    | (.error .concurrentConflict, db1, evs) => (⟨409⟩, db1, evs)
    | (.error .paymentFailed, db1, evs) => (⟨402⟩, db1, evs)

/-- One step of the system: a `createBooking` call (with arbitrary
concurrent claims, booking reference, id counter and payment outcome), or
one of the two read-only queries, which return no new state. -/
inductive Step : DB → DB → Prop
  | book (db : DB) (locked : List Nat) (req : BookingRequest)
      (ref : String) (nid : Nat) (pay : Bool) :
      Step db (createBookingTr db locked req ref nid pay).2.1
  | readAvailability (db : DB) : Step db db
  | readCatalog (db : DB) : Step db db

/-- Durable states reachable by a sequence of the above operations. -/
inductive Reachable : DB → DB → Prop
  | refl (db : DB) : Reachable db db
  | tail {a b c : DB} : Reachable a b → Step b c → Reachable a c

/-- A ticket id is unavailable in a table: every `tickets` row with that
id has `available = false`. -/
def UnavailableAt (tickets : List Ticket) (i : Nat) : Prop :=
  ∀ t ∈ tickets, t.id = i → t.available = false

instance (tickets : List Ticket) (i : Nat) : Decidable (UnavailableAt tickets i) :=
  inferInstanceAs (Decidable (∀ t ∈ tickets, t.id = i → t.available = false))

/-- The `ticket_id` column of the Confirmed (`payment_status = success`)
reservation rows of a state. -/
def confirmedTicketIds (db : DB) : List Nat :=
  (db.bookings.filter fun b => b.payment_status == .success).map fun b => b.ticket_id

/-- Recognizer for the payment event of a trace. -/
def isPaymentEv : Event → Bool
  | .payment _ => true
  | _ => false

/-- Recognizer for the reservation-row insertion events of a trace. -/
def isInsertEv : Event → Bool
  | .insertBooking _ _ => true
  | _ => false

/-- Recognizer for the mark-unavailable events of a trace. -/
def isMarkEv : Event → Bool
  | .markUnavailable _ => true
  | _ => false

/-! ## Helper lemmas -/

theorem hasBookingFor_false_iff (bk : List Booking) (tid : Nat) :
    hasBookingFor bk tid = false ↔ tid ∉ bk.map fun b => b.ticket_id := by
  constructor
  · intro h hmem
    rcases List.mem_map.mp hmem with ⟨b, hb, hbt⟩
    have hbeq : (b.ticket_id == tid) = true := beq_iff_eq.mpr hbt
    have hany : bk.any (fun b => b.ticket_id == tid) = true :=
      List.any_eq_true.mpr ⟨b, hb, hbeq⟩
    rw [hasBookingFor] at h
    rw [h] at hany
    cases hany
  · intro h
    cases hv : hasBookingFor bk tid
    · rfl
    · rcases List.any_eq_true.mp hv with ⟨b, hb, hbt⟩
      exact absurd (List.mem_map.mpr ⟨b, hb, beq_iff_eq.mp hbt⟩) h

theorem markBatchSuccess_ticketIds (l : List Booking) (ref : String) :
    (markBatchSuccess l ref).map (fun b => b.ticket_id) = l.map fun b => b.ticket_id := by
  unfold markBatchSuccess
  rw [List.map_map]
  apply List.map_congr_left
  intro b _
  simp only [Function.comp]
  split <;> rfl

theorem markBatchSuccess_length (l : List Booking) (ref : String) :
    (markBatchSuccess l ref).length = l.length := by
  simp [markBatchSuccess]

theorem setUnavailable_unavailableAt {l : List Ticket} {i : Nat} (tid : Nat)
    (h : UnavailableAt l i) : UnavailableAt (setUnavailable l tid) i := by
  intro x hx hxi
  rcases List.mem_map.mp hx with ⟨t, ht, rfl⟩
  by_cases hc : (t.id == tid) = true
  · simp [hc]
  · simp only [hc, if_false] at hxi ⊢
    exact h t ht hxi

theorem mem_getAvailableTickets {tickets : List Ticket} {locked : List Nat}
    {tier : Tier} {quantity : Nat} {t : Ticket}
    (h : t ∈ getAvailableTickets tickets locked tier quantity) :
    t ∈ tickets ∧ availMatch locked tier t = true := by
  unfold getAvailableTickets at h
  have h1 : t ∈ List.insertionSort idLe (tickets.filter (availMatch locked tier)) :=
    (List.take_sublist _ _).subset h
  have h2 : t ∈ tickets.filter (availMatch locked tier) :=
    (List.perm_insertionSort idLe _).mem_iff.mp h1
  exact List.mem_filter.mp h2

theorem insertLoop_spec (u ref : String) (ts : List Ticket) :
    ∀ (work : DB) (nid : Nat) (evs : List Event) (work' : DB) (bs : List Booking),
      insertLoop u ref ts work nid = (evs, some (work', bs)) →
      work'.bookings = work.bookings ++ bs ∧
      bs.length = ts.length ∧
      (∀ b ∈ bs, b.booking_reference = ref) ∧
      ((work.bookings.map fun b => b.ticket_id).Nodup →
        (work'.bookings.map fun b => b.ticket_id).Nodup) ∧
      (∀ i, UnavailableAt work.tickets i → UnavailableAt work'.tickets i) ∧
      evs.countP isInsertEv = ts.length ∧
      evs.countP isMarkEv = ts.length := by
  induction ts with
  | nil =>
    intro work nid evs work' bs h
    simp only [insertLoop, Prod.mk.injEq, Option.some.injEq] at h
    obtain ⟨rfl, rfl, rfl⟩ := h
    simp
  | cons t ts ih =>
    intro work nid evs work' bs h
    rw [insertLoop] at h
    split at h
    · simp at h
    · rename_i hc
      split at h
      · simp at h
      · rename_i evs1 work2 bs1 hE
        simp only [Prod.mk.injEq, Option.some.injEq] at h
        obtain ⟨rfl, rfl, rfl⟩ := h
        obtain ⟨hbk, hlen, href, hnd, hun, hci, hcm⟩ := ih _ _ _ _ _ hE
        have hcfalse : hasBookingFor work.bookings t.id = false := by
          cases hcv : hasBookingFor work.bookings t.id
          · rfl
          · exact absurd (by simp [hcv]) hc
        refine ⟨?_, ?_, ?_, ?_, ?_, ?_, ?_⟩
        · rw [hbk]; simp
        · simp [hlen]
        · intro b hb
          rcases List.mem_cons.mp hb with rfl | hb1
          · rfl
          · exact href b hb1
        · intro hnd0
          apply hnd
          simp only [List.map_append, List.map_cons, List.map_nil]
          rw [List.nodup_append]
          refine ⟨hnd0, List.nodup_singleton _, ?_⟩
          intro x hx hx1
          simp only [List.mem_singleton] at hx1
          subst hx1
          exact (hasBookingFor_false_iff work.bookings t.id).mp hcfalse hx
        · intro i hi
          exact hun i (setUnavailable_unavailableAt t.id hi)
        · simp [List.countP_cons, isInsertEv, isMarkEv, hci]
        · simp [List.countP_cons, isInsertEv, isMarkEv, hcm]

theorem insertLoop_events (u ref : String) (ts : List Ticket) :
    ∀ (work : DB) (nid : Nat) (e : Event), e ∈ (insertLoop u ref ts work nid).1 →
      isInsertEv e = true ∨ isMarkEv e = true := by
  induction ts with
  | nil =>
    intro work nid e he
    simp [insertLoop] at he
  | cons t ts ih =>
    intro work nid e he
    rw [insertLoop] at he
    split at he
    · simp at he
    · split at he <;> rename_i hE <;>
      · simp only [List.mem_cons] at he
        rcases he with rfl | rfl | he1
        · left; rfl
        · right; rfl
        · exact ih _ _ _ (by rw [hE]; exact he1)

theorem insertLoop_none_of_conflict (u ref : String) (ts : List Ticket) :
    ∀ (work : DB) (nid : Nat),
      (∃ t ∈ ts, hasBookingFor work.bookings t.id = true) →
      (insertLoop u ref ts work nid).2 = none := by
  induction ts with
  | nil =>
    rintro work nid ⟨t, ht, -⟩
    simp at ht
  | cons t ts ih =>
    rintro work nid ⟨t1, ht1, hb⟩
    rw [insertLoop]
    split
    · rfl
    · rename_i hc
      rcases List.mem_cons.mp ht1 with rfl | hts
      · exact absurd (by simp [hb]) hc
      · have hmono : hasBookingFor
            (work.bookings ++ [⟨nid, t.id, u, 1, t.price, .pending, ref⟩]) t1.id = true := by
          simp only [hasBookingFor, List.any_append, Bool.or_eq_true]
          exact Or.inl hb
        have hrec := ih ⟨setUnavailable work.tickets t.id,
            work.bookings ++ [⟨nid, t.id, u, 1, t.price, .pending, ref⟩]⟩
            (nid + 1) ⟨t1, hts, hmono⟩
        split <;> rename_i hE
        · rfl
        · rw [hE] at hrec
          simp at hrec

theorem insertLoop_none_of_refConflict (u ref : String) (t : Ticket) (ts : List Ticket)
    (work : DB) (nid : Nat) (h : hasReference work.bookings ref = true) :
    (insertLoop u ref (t :: ts) work nid).2 = none := by
  rw [insertLoop]
  split
  · rfl
  · rename_i hc
    exact absurd (by simp [h]) hc

theorem createBookingTr_insufficient (db : DB) (locked : List Nat) (req : BookingRequest)
    (ref : String) (nid : Nat) (pay : Bool)
    (h : (getAvailableTickets db.tickets locked req.tier req.quantity).length < req.quantity) :
    createBookingTr db locked req ref nid pay =
      (.error (.insufficientTickets req.quantity
          (getAvailableTickets db.tickets locked req.tier req.quantity).length), db,
       [Event.beginTx,
        Event.selectTickets req.tier req.quantity
          (getAvailableTickets db.tickets locked req.tier req.quantity).length,
        Event.rollbackTx]) := by
  simp [createBookingTr, h]

theorem createBookingTr_conflict (db : DB) (locked : List Nat) (req : BookingRequest)
    (ref : String) (nid : Nat) (pay : Bool) (evs : List Event)
    (hge : ¬ (getAvailableTickets db.tickets locked req.tier req.quantity).length < req.quantity)
    (hI : insertLoop req.userId ref (getAvailableTickets db.tickets locked req.tier req.quantity)
        db nid = (evs, none)) :
    createBookingTr db locked req ref nid pay =
      (.error .concurrentConflict, db,
       Event.beginTx ::
       Event.selectTickets req.tier req.quantity
         (getAvailableTickets db.tickets locked req.tier req.quantity).length ::
       Event.genReference ref :: (evs ++ [Event.rollbackTx])) := by
  simp [createBookingTr, hge, hI]

theorem createBookingTr_paySuccess (db : DB) (locked : List Nat) (req : BookingRequest)
    (ref : String) (nid : Nat) (evs : List Event) (work : DB) (bs : List Booking)
    (hge : ¬ (getAvailableTickets db.tickets locked req.tier req.quantity).length < req.quantity)
    (hI : insertLoop req.userId ref (getAvailableTickets db.tickets locked req.tier req.quantity)
        db nid = (evs, some (work, bs))) :
    createBookingTr db locked req ref nid true =
      (.ok (bs.map fun b => { b with payment_status := .success }),
       { work with bookings := markBatchSuccess work.bookings ref },
       Event.beginTx ::
       Event.selectTickets req.tier req.quantity
         (getAvailableTickets db.tickets locked req.tier req.quantity).length ::
       Event.genReference ref ::
       (evs ++ [Event.payment true, Event.markBatchSuccess ref, Event.commitTx])) := by
  simp [createBookingTr, hge, hI]

theorem createBookingTr_payFail (db : DB) (locked : List Nat) (req : BookingRequest)
    (ref : String) (nid : Nat) (evs : List Event) (work : DB) (bs : List Booking)
    (hge : ¬ (getAvailableTickets db.tickets locked req.tier req.quantity).length < req.quantity)
    (hI : insertLoop req.userId ref (getAvailableTickets db.tickets locked req.tier req.quantity)
        db nid = (evs, some (work, bs))) :
    createBookingTr db locked req ref nid false =
      (.error .paymentFailed, db,
       Event.beginTx ::
       Event.selectTickets req.tier req.quantity
         (getAvailableTickets db.tickets locked req.tier req.quantity).length ::
       Event.genReference ref ::
       (evs ++ [Event.payment false, Event.rollbackTx])) := by
  simp [createBookingTr, hge, hI]

theorem createBookingTr_error_db (db : DB) (locked : List Nat) (req : BookingRequest)
    (ref : String) (nid : Nat) (pay : Bool) (e : BookingError)
    (h : (createBookingTr db locked req ref nid pay).1 = .error e) :
    (createBookingTr db locked req ref nid pay).2.1 = db := by
  by_cases hge : (getAvailableTickets db.tickets locked req.tier req.quantity).length < req.quantity
  · rw [createBookingTr_insufficient db locked req ref nid pay hge]
  · rcases hI : insertLoop req.userId ref
        (getAvailableTickets db.tickets locked req.tier req.quantity) db nid with ⟨evs, o⟩
    cases o with
    | none => rw [createBookingTr_conflict db locked req ref nid pay evs hge hI]
    | some p =>
      rcases p with ⟨work, bs⟩
      cases pay with
      | true =>
        rw [createBookingTr_paySuccess db locked req ref nid evs work bs hge hI] at h
        simp at h
      | false => rw [createBookingTr_payFail db locked req ref nid evs work bs hge hI]

theorem step_unavailable {a b : DB} (h : Step a b) :
    ∀ i, UnavailableAt a.tickets i → UnavailableAt b.tickets i := by
  cases h with
  | readAvailability => exact fun _ hi => hi
  | readCatalog => exact fun _ hi => hi
  | book locked req ref nid pay =>
    intro i hi
    by_cases hge : (getAvailableTickets a.tickets locked req.tier req.quantity).length <
        req.quantity
    · rw [createBookingTr_insufficient a locked req ref nid pay hge]
      exact hi
    · rcases hI : insertLoop req.userId ref
          (getAvailableTickets a.tickets locked req.tier req.quantity) a nid with ⟨evs, o⟩
      cases o with
      | none =>
        rw [createBookingTr_conflict a locked req ref nid pay evs hge hI]
        exact hi
      | some p =>
        rcases p with ⟨work, bs⟩
        cases pay with
        | false =>
          rw [createBookingTr_payFail a locked req ref nid evs work bs hge hI]
          exact hi
        | true =>
          rw [createBookingTr_paySuccess a locked req ref nid evs work bs hge hI]
          exact (insertLoop_spec req.userId ref _ a nid evs work bs hI).2.2.2.2.1 i hi

theorem reachable_unavailable {a b : DB} (h : Reachable a b) :
    ∀ i, UnavailableAt a.tickets i → UnavailableAt b.tickets i := by
  induction h with
  | refl => exact fun _ hi => hi
  | tail _ hs ih => exact fun i hi => step_unavailable hs i (ih i hi)

theorem step_bookings_nodup {a b : DB} (h : Step a b)
    (hn : (a.bookings.map fun bk => bk.ticket_id).Nodup) :
    (b.bookings.map fun bk => bk.ticket_id).Nodup := by
  cases h with
  | readAvailability => exact hn
  | readCatalog => exact hn
  | book locked req ref nid pay =>
    by_cases hge : (getAvailableTickets a.tickets locked req.tier req.quantity).length <
        req.quantity
    · rw [createBookingTr_insufficient a locked req ref nid pay hge]
      exact hn
    · rcases hI : insertLoop req.userId ref
          (getAvailableTickets a.tickets locked req.tier req.quantity) a nid with ⟨evs, o⟩
      cases o with
      | none =>
        rw [createBookingTr_conflict a locked req ref nid pay evs hge hI]
        exact hn
      | some p =>
        rcases p with ⟨work, bs⟩
        cases pay with
        | false =>
          rw [createBookingTr_payFail a locked req ref nid evs work bs hge hI]
          exact hn
        | true =>
          rw [createBookingTr_paySuccess a locked req ref nid evs work bs hge hI]
          show ((markBatchSuccess work.bookings ref).map fun bk => bk.ticket_id).Nodup
          rw [markBatchSuccess_ticketIds]
          exact (insertLoop_spec req.userId ref _ a nid evs work bs hI).2.2.2.1 hn

theorem reachable_bookings_nodup {a b : DB} (h : Reachable a b)
    (hn : (a.bookings.map fun bk => bk.ticket_id).Nodup) :
    (b.bookings.map fun bk => bk.ticket_id).Nodup := by
  induction h with
  | refl => exact hn
  | tail _ hs ih => exact step_bookings_nodup hs ih

/-- C1: the UNIQUE constraint on `bookings.ticket_id` protects every unit:
if one of the selected units already has a reservation row, the insertion
is rejected, the whole attempt is rolled back (the durable state is the
pre-call state), and the call fails with the ConcurrentConflict error; and
consequently in every state reachable by any sequence of booking attempts
from a state whose reservation rows reference distinct units, no two
Confirmed (`payment_status = success`) reservation rows reference the same
unit id. -/
theorem at_most_one_confirmed_per_unit :
    (∀ (db : DB) (locked : List Nat) (req : BookingRequest) (ref : String) (nid : Nat)
        (pay : Bool),
      ¬ (getAvailableTickets db.tickets locked req.tier req.quantity).length < req.quantity →
      (∃ t ∈ getAvailableTickets db.tickets locked req.tier req.quantity,
          hasBookingFor db.bookings t.id = true) →
      (createBookingTr db locked req ref nid pay).1 = Except.error BookingError.concurrentConflict ∧
      (createBookingTr db locked req ref nid pay).2.1 = db) ∧
    (∀ db0 db : DB, (db0.bookings.map fun b => b.ticket_id).Nodup → Reachable db0 db →
      (confirmedTicketIds db).Nodup) := by
  constructor
  · intro db locked req ref nid pay hge hconf
    have hnone := insertLoop_none_of_conflict req.userId ref
      (getAvailableTickets db.tickets locked req.tier req.quantity) db nid hconf
    rcases hI : insertLoop req.userId ref
        (getAvailableTickets db.tickets locked req.tier req.quantity) db nid with ⟨evs, o⟩
    rw [hI] at hnone
    cases o with
    | none => rw [createBookingTr_conflict db locked req ref nid pay evs hge hI]; exact ⟨rfl, rfl⟩
    | some p => simp at hnone
  · intro db0 db hn hr
    have hall := reachable_bookings_nodup hr hn
    exact List.Nodup.sublist
      (List.Sublist.map _ (List.filter_sublist db.bookings)) hall

theorem at_most_one_confirmed_per_unit_witness :
    ((createBookingTr ⟨[⟨1, Tier.GA, 10, true⟩], [⟨9, 1, "x", 1, 10, .pending, "old"⟩]⟩ []
        ⟨.GA, 1, "u"⟩ "r" 2 true).1 = Except.error BookingError.concurrentConflict) ∧
    (confirmedTicketIds (createBookingTr ⟨[⟨1, Tier.GA, 10, true⟩, ⟨2, Tier.GA, 10, true⟩], []⟩
        [] ⟨.GA, 1, "u"⟩ "r" 1 true).2.1).Nodup :=
  ⟨(at_most_one_confirmed_per_unit.1 ⟨[⟨1, Tier.GA, 10, true⟩],
      [⟨9, 1, "x", 1, 10, .pending, "old"⟩]⟩ [] ⟨.GA, 1, "u"⟩ "r" 2 true
      (by decide) (by decide)).1,
   at_most_one_confirmed_per_unit.2 ⟨[⟨1, Tier.GA, 10, true⟩, ⟨2, Tier.GA, 10, true⟩], []⟩ _
     (by decide)
     (Reachable.tail (Reachable.refl _)
       (Step.book ⟨[⟨1, Tier.GA, 10, true⟩, ⟨2, Tier.GA, 10, true⟩], []⟩ [] ⟨.GA, 1, "u"⟩
         "r" 1 true))⟩

/-- C2: createBooking is all-or-nothing on every failure path: the durable
state after an error is exactly the pre-call state; after a payment
failure every unit selected by the attempt is still available, and, when
the booking reference of the attempt is fresh, no reservation row carrying
it remains. -/
theorem createBooking_atomic_on_error (db : DB) (locked : List Nat) (req : BookingRequest)
    (ref : String) (nid : Nat) (pay : Bool) (e : BookingError)
    (h : (createBookingTr db locked req ref nid pay).1 = Except.error e) :
    (createBookingTr db locked req ref nid pay).2.1 = db ∧
    (∀ t ∈ getAvailableTickets db.tickets locked req.tier req.quantity,
        t.available = true) ∧
    ((∀ b ∈ db.bookings, b.booking_reference ≠ ref) →
      ∀ b ∈ (createBookingTr db locked req ref nid pay).2.1.bookings,
        b.booking_reference ≠ ref) := by
  have hdb := createBookingTr_error_db db locked req ref nid pay e h
  refine ⟨hdb, ?_, ?_⟩
  · intro t ht
    have := (mem_getAvailableTickets ht).2
    simp only [availMatch, Bool.and_eq_true] at this
    exact this.1.2
  · intro hfresh b hb
    rw [hdb] at hb
    exact hfresh b hb

theorem createBooking_atomic_on_error_witness :
    ((createBookingTr ⟨[⟨1, Tier.GA, 10, true⟩], []⟩ [] ⟨.GA, 1, "u"⟩ "r" 1 false).2.1 =
      ⟨[⟨1, Tier.GA, 10, true⟩], []⟩) ∧
    (∀ t ∈ getAvailableTickets [⟨1, Tier.GA, 10, true⟩] [] Tier.GA 1, t.available = true) :=
  ⟨(createBooking_atomic_on_error ⟨[⟨1, Tier.GA, 10, true⟩], []⟩ [] ⟨.GA, 1, "u"⟩ "r" 1 false
      .paymentFailed (by decide)).1,
   (createBooking_atomic_on_error ⟨[⟨1, Tier.GA, 10, true⟩], []⟩ [] ⟨.GA, 1, "u"⟩ "r" 1 false
      .paymentFailed (by decide)).2.1⟩

/-- C3: when fewer matching, available, unclaimed units are found than
requested, createBooking aborts the whole attempt: it fails with the
insufficient-inventory error carrying the requested and found counts, the
durable state is exactly the pre-call state (no reservation row created,
no availability flag changed, no partial allocation), and the trace is
just the select followed by the rollback. -/
theorem insufficient_inventory_rejects_whole_attempt (db : DB) (locked : List Nat)
    (req : BookingRequest) (ref : String) (nid : Nat) (pay : Bool)
    (h : (getAvailableTickets db.tickets locked req.tier req.quantity).length < req.quantity) :
    createBookingTr db locked req ref nid pay =
      (Except.error (BookingError.insufficientTickets req.quantity
          (getAvailableTickets db.tickets locked req.tier req.quantity).length), db,
       [Event.beginTx,
        Event.selectTickets req.tier req.quantity
          (getAvailableTickets db.tickets locked req.tier req.quantity).length,
        Event.rollbackTx]) :=
  createBookingTr_insufficient db locked req ref nid pay h

theorem insufficient_inventory_rejects_whole_attempt_witness :
    (getAvailableTickets [⟨1, Tier.GA, 10, true⟩] [] Tier.GA 2).length < 2 ∧
    createBookingTr ⟨[⟨1, Tier.GA, 10, true⟩], []⟩ [] ⟨.GA, 2, "u"⟩ "r" 1 true =
      (Except.error (BookingError.insufficientTickets 2 1), ⟨[⟨1, Tier.GA, 10, true⟩], []⟩,
       [Event.beginTx, Event.selectTickets Tier.GA 2 1, Event.rollbackTx]) :=
  ⟨by decide,
   (insufficient_inventory_rejects_whole_attempt ⟨[⟨1, Tier.GA, 10, true⟩], []⟩ []
      ⟨.GA, 2, "u"⟩ "r" 1 true (by decide)).trans (by decide)⟩

/-- C6: under createBooking and the two read-only queries, a unit's
`available` flag never returns to `true`: along any reachable sequence of
operations an id that is unavailable stays unavailable (so the flag
transitions `true → false` at most once), and any failed (rolled-back)
attempt leaves the durable state, in particular every flag, exactly as it
was. -/
theorem ticket_availability_monotone :
    (∀ db0 db : DB, Reachable db0 db →
      ∀ i, UnavailableAt db0.tickets i → UnavailableAt db.tickets i) ∧
    (∀ (db : DB) (locked : List Nat) (req : BookingRequest) (ref : String) (nid : Nat)
        (pay : Bool) (e : BookingError),
      (createBookingTr db locked req ref nid pay).1 = Except.error e →
      (createBookingTr db locked req ref nid pay).2.1 = db) :=
  ⟨fun _ _ h => reachable_unavailable h,
   fun db locked req ref nid pay e h => createBookingTr_error_db db locked req ref nid pay e h⟩

theorem ticket_availability_monotone_witness :
    UnavailableAt (createBookingTr ⟨[⟨1, Tier.GA, 10, false⟩, ⟨2, Tier.GA, 10, true⟩], []⟩ []
      ⟨.GA, 1, "u"⟩ "r" 1 true).2.1.tickets 1 ∧
    (createBookingTr ⟨[⟨1, Tier.GA, 10, true⟩], []⟩ [] ⟨.GA, 1, "u"⟩ "r" 1 false).2.1 =
      ⟨[⟨1, Tier.GA, 10, true⟩], []⟩ :=
  ⟨ticket_availability_monotone.1 ⟨[⟨1, Tier.GA, 10, false⟩, ⟨2, Tier.GA, 10, true⟩], []⟩ _
     (Reachable.tail (Reachable.refl _)
       (Step.book ⟨[⟨1, Tier.GA, 10, false⟩, ⟨2, Tier.GA, 10, true⟩], []⟩ [] ⟨.GA, 1, "u"⟩
         "r" 1 true))
     1 (by decide),
   ticket_availability_monotone.2 ⟨[⟨1, Tier.GA, 10, true⟩], []⟩ [] ⟨.GA, 1, "u"⟩ "r" 1 false
     .paymentFailed (by decide)⟩

/-- C4: candidate selection is deterministic lowest-id-first:
`getAvailableTickets` returns min(quantity, matches) units; every returned
unit matches the tier, is available, and is not claimed by a concurrent
in-flight attempt (claimed units are skipped, not waited on); the result
is sorted by id ascending; and any matching unit left out has an id at
least as large as every returned unit (the next-lowest candidate is always
taken). -/
theorem candidate_selection_lowest_id_first (tickets : List Ticket) (locked : List Nat)
    (tier : Tier) (quantity : Nat) :
    (getAvailableTickets tickets locked tier quantity).length =
      min quantity (tickets.countP (availMatch locked tier)) ∧
    (∀ t ∈ getAvailableTickets tickets locked tier quantity,
        t.tier = tier ∧ t.available = true ∧ t.id ∉ locked) ∧
    List.Sorted idLe (getAvailableTickets tickets locked tier quantity) ∧
    (∀ u ∈ tickets, availMatch locked tier u = true →
        u ∉ getAvailableTickets tickets locked tier quantity →
        ∀ t ∈ getAvailableTickets tickets locked tier quantity, t.id ≤ u.id) := by
  refine ⟨?_, ?_, ?_, ?_⟩
  · rw [getAvailableTickets, List.length_take, List.length_insertionSort,
      List.countP_eq_length_filter]
  · intro t ht
    have hm := (mem_getAvailableTickets ht).2
    simp only [availMatch, Bool.and_eq_true, Bool.not_eq_true', beq_iff_eq] at hm
    refine ⟨hm.1.1, hm.1.2, ?_⟩
    intro hcon
    have : locked.contains t.id = true := List.contains_eq_any_beq locked t.id ▸
      List.any_eq_true.mpr ⟨t.id, hcon, beq_self_eq_true t.id⟩
    rw [this] at hm
    exact Bool.true_eq_false.mp hm.2
  · exact List.Pairwise.sublist (List.take_sublist _ _)
      (List.sorted_insertionSort idLe (tickets.filter (availMatch locked tier)))
  · intro u hu hmatch hnot t ht
    have hsorted := List.sorted_insertionSort idLe (tickets.filter (availMatch locked tier))
    have husort : u ∈ List.insertionSort idLe (tickets.filter (availMatch locked tier)) := by
      rw [List.mem_insertionSort]
      exact List.mem_filter.mpr ⟨hu, hmatch⟩
    rw [← List.take_append_drop quantity
        (List.insertionSort idLe (tickets.filter (availMatch locked tier)))] at husort hsorted
    have hudrop : u ∈ (List.insertionSort idLe
        (tickets.filter (availMatch locked tier))).drop quantity := by
      rcases List.mem_append.mp husort with h1 | h2
      · exact absurd h1 hnot
      · exact h2
    have := (List.pairwise_append.mp hsorted).2.2 t ht u hudrop
    exact this

theorem candidate_selection_lowest_id_first_witness :
    ((getAvailableTickets [⟨3, Tier.GA, 10, true⟩, ⟨1, Tier.GA, 10, true⟩,
        ⟨5, Tier.GA, 10, true⟩] [1] Tier.GA 1).length = 1) ∧
    (⟨3, Tier.GA, 10, true⟩ : Ticket).id ≤ (⟨5, Tier.GA, 10, true⟩ : Ticket).id :=
  ⟨((candidate_selection_lowest_id_first [⟨3, Tier.GA, 10, true⟩, ⟨1, Tier.GA, 10, true⟩,
      ⟨5, Tier.GA, 10, true⟩] [1] Tier.GA 1).1).trans (by decide),
   (candidate_selection_lowest_id_first [⟨3, Tier.GA, 10, true⟩, ⟨1, Tier.GA, 10, true⟩,
      ⟨5, Tier.GA, 10, true⟩] [1] Tier.GA 1).2.2.2 ⟨5, Tier.GA, 10, true⟩ (by decide)
      (by decide) (by decide) ⟨3, Tier.GA, 10, true⟩ (by decide)⟩

theorem selected_length_eq (db : DB) (locked : List Nat) (req : BookingRequest)
    (hge : ¬ (getAvailableTickets db.tickets locked req.tier req.quantity).length <
      req.quantity) :
    (getAvailableTickets db.tickets locked req.tier req.quantity).length = req.quantity :=
  Nat.le_antisymm (by rw [getAvailableTickets]; exact List.length_take_le _ _)
    (Nat.le_of_not_lt hge)

/-- C5 counterexample: retrying with the same batch reference does not
return the committed batch. Starting from two available GA units and an
empty bookings table, a first call commits a one-unit batch under
reference BK-1; a second call with the same logical request and the same
reference BK-1 does not recognize that batch and does not return it: its
INSERT violates the UNIQUE constraint on booking_reference, so the retry
aborts with the ConcurrentConflict error, returning no batch at all and
leaving the state unchanged. Moreover the reference-generation event comes
after the candidate-selection event in the trace, not before it. -/
theorem retry_not_idempotent_counterexample :
    ((createBookingTr ⟨[⟨1, Tier.GA, 10, true⟩, ⟨2, Tier.GA, 10, true⟩], []⟩ []
        ⟨.GA, 1, "u1"⟩ "BK-1" 1 true).2.1.bookings =
      [⟨1, 1, "u1", 1, 10, .success, "BK-1"⟩]) ∧
    ((createBookingTr (createBookingTr ⟨[⟨1, Tier.GA, 10, true⟩, ⟨2, Tier.GA, 10, true⟩], []⟩
        [] ⟨.GA, 1, "u1"⟩ "BK-1" 1 true).2.1 [] ⟨.GA, 1, "u1"⟩ "BK-1" 2 true).1 =
      Except.error BookingError.concurrentConflict) ∧
    ((createBookingTr (createBookingTr ⟨[⟨1, Tier.GA, 10, true⟩, ⟨2, Tier.GA, 10, true⟩], []⟩
        [] ⟨.GA, 1, "u1"⟩ "BK-1" 1 true).2.1 [] ⟨.GA, 1, "u1"⟩ "BK-1" 2 true).2.1 =
      (createBookingTr ⟨[⟨1, Tier.GA, 10, true⟩, ⟨2, Tier.GA, 10, true⟩], []⟩ []
        ⟨.GA, 1, "u1"⟩ "BK-1" 1 true).2.1) ∧
    ((createBookingTr ⟨[⟨1, Tier.GA, 10, true⟩, ⟨2, Tier.GA, 10, true⟩], []⟩ []
        ⟨.GA, 1, "u1"⟩ "BK-1" 1 true).2.2.take 3 =
      [Event.beginTx, Event.selectTickets Tier.GA 1 1, Event.genReference "BK-1"]) := by
  decide

/-- C5 (amended): there is no idempotent retry by batch reference.  The
reference is generated during the call, after candidate selection and
before row insertion (a successful trace opens with select, then reference
generation); every row of a successful call carries the reference
generated for that call and a successful call always appends `quantity`
new rows.  A retry reusing a reference already carried by a committed row
is not recognized: as soon as it selects at least one unit, the UNIQUE
constraint on booking_reference rejects its first insertion and the call
aborts with the ConcurrentConflict error, leaving the durable state
unchanged and returning no batch. -/
theorem fresh_allocation_per_call (db : DB) (locked : List Nat) (req : BookingRequest)
    (ref : String) (nid : Nat) (pay : Bool) :
    (∀ bs, (createBookingTr db locked req ref nid pay).1 = Except.ok bs →
      (∀ b ∈ bs, b.booking_reference = ref) ∧
      bs.length = req.quantity ∧
      (createBookingTr db locked req ref nid pay).2.1.bookings.length =
        db.bookings.length + req.quantity ∧
      (createBookingTr db locked req ref nid pay).2.2.take 3 =
        [Event.beginTx, Event.selectTickets req.tier req.quantity req.quantity,
         Event.genReference ref]) ∧
    (hasReference db.bookings ref = true →
      ¬ (getAvailableTickets db.tickets locked req.tier req.quantity).length <
        req.quantity →
      0 < (getAvailableTickets db.tickets locked req.tier req.quantity).length →
      (createBookingTr db locked req ref nid pay).1 =
        Except.error BookingError.concurrentConflict ∧
      (createBookingTr db locked req ref nid pay).2.1 = db) := by
  constructor
  · intro bs h
    by_cases hge : (getAvailableTickets db.tickets locked req.tier req.quantity).length <
        req.quantity
    · rw [createBookingTr_insufficient db locked req ref nid pay hge] at h
      simp at h
    · rcases hI : insertLoop req.userId ref
          (getAvailableTickets db.tickets locked req.tier req.quantity) db nid with ⟨evs, o⟩
      cases o with
      | none =>
        rw [createBookingTr_conflict db locked req ref nid pay evs hge hI] at h
        simp at h
      | some p =>
        rcases p with ⟨work, bs0⟩
        cases pay with
        | false =>
          rw [createBookingTr_payFail db locked req ref nid evs work bs0 hge hI] at h
          simp at h
        | true =>
          obtain ⟨hbk, hlen, href, -, -, -, -⟩ :=
            insertLoop_spec req.userId ref _ db nid evs work bs0 hI
          have hq := selected_length_eq db locked req hge
          rw [createBookingTr_paySuccess db locked req ref nid evs work bs0 hge hI] at h ⊢
          simp only [Except.ok.injEq] at h
          subst h
          refine ⟨?_, ?_, ?_, ?_⟩
          · intro b hb
            rcases List.mem_map.mp hb with ⟨b0, hb0, rfl⟩
            exact href b0 hb0
          · rw [List.length_map, hlen, hq]
          · show (markBatchSuccess work.bookings ref).length = db.bookings.length + req.quantity
            rw [markBatchSuccess_length, hbk, List.length_append, hlen, hq]
          · simp [hq]
  · intro hrf hge hpos
    rcases hsel : getAvailableTickets db.tickets locked req.tier req.quantity with _ | ⟨t, ts1⟩
    · rw [hsel] at hpos
      simp at hpos
    · have hnone := insertLoop_none_of_refConflict req.userId ref t ts1 db nid hrf
      rw [← hsel] at hnone
      rcases hI : insertLoop req.userId ref
          (getAvailableTickets db.tickets locked req.tier req.quantity) db nid with ⟨evs, o⟩
      rw [hI] at hnone
      cases o with
      | none =>
        rw [createBookingTr_conflict db locked req ref nid pay evs hge hI]
        exact ⟨rfl, rfl⟩
      | some p =>
        simp at hnone

theorem fresh_allocation_per_call_witness :
    ((createBookingTr ⟨[⟨1, Tier.GA, 10, true⟩], []⟩ [] ⟨.GA, 1, "u1"⟩ "r" 1
        true).2.1.bookings.length = 1) ∧
    ((createBookingTr ⟨[⟨1, Tier.GA, 10, true⟩], [⟨7, 2, "v", 1, 10, .success, "r"⟩]⟩ []
        ⟨.GA, 1, "u1"⟩ "r" 8 true).1 = Except.error BookingError.concurrentConflict) :=
  ⟨(((fresh_allocation_per_call ⟨[⟨1, Tier.GA, 10, true⟩], []⟩ [] ⟨.GA, 1, "u1"⟩ "r" 1
      true).1 [⟨1, 1, "u1", 1, 10, .success, "r"⟩] (by decide)).2.2.1).trans (by decide),
   ((fresh_allocation_per_call ⟨[⟨1, Tier.GA, 10, true⟩], [⟨7, 2, "v", 1, 10, .success, "r"⟩]⟩
      [] ⟨.GA, 1, "u1"⟩ "r" 8 true).2 (by decide) (by decide) (by decide)).1⟩

theorem insertLoop_countP_payment (u ref : String) (ts : List Ticket) (work : DB) (nid : Nat) :
    (insertLoop u ref ts work nid).1.countP isPaymentEv = 0 := by
  rw [List.countP_eq_zero]
  intro e he
  rcases insertLoop_events u ref ts work nid e he with h | h <;>
    cases e <;> simp_all [isInsertEv, isMarkEv, isPaymentEv]

theorem eventSplit_unique (p : Event → Bool) :
    ∀ (a c : List Event) (x y : Event) (b d : List Event),
      (∀ e ∈ a, p e = false) → (∀ e ∈ c, p e = false) →
      p x = true → p y = true →
      a ++ x :: b = c ++ y :: d → a = c ∧ x = y ∧ b = d := by
  intro a
  induction a with
  | nil =>
    intro c x y b d _ hc hx hy heq
    cases c with
    | nil =>
      simp only [List.nil_append] at heq
      injection heq with h1 h2
      exact ⟨rfl, h1, h2⟩
    | cons z zs =>
      simp only [List.nil_append, List.cons_append] at heq
      injection heq with h1 h2
      rw [h1] at hx
      rw [hc z (List.mem_cons_self z zs)] at hx
      cases hx
  | cons w ws ih =>
    intro c x y b d ha hc hx hy heq
    cases c with
    | nil =>
      simp only [List.nil_append, List.cons_append] at heq
      injection heq with h1 h2
      rw [← h1] at hy
      rw [ha w (List.mem_cons_self w ws)] at hy
      cases hy
    | cons z zs =>
      simp only [List.cons_append] at heq
      injection heq with h1 h2
      obtain ⟨h3, h4, h5⟩ := ih zs x y b d
        (fun e he => ha e (List.mem_cons_of_mem _ he))
        (fun e he => hc e (List.mem_cons_of_mem _ he)) hx hy h2
      exact ⟨by rw [h1, h3], h4, h5⟩

/-- C7: the payment step happens exactly once per attempt that reaches it,
after the claims and before the commit: every trace of `createBookingTr`
contains at most one payment event; whenever a payment event occurs, the
events before it include exactly `quantity` reservation-row insertions and
exactly `quantity` mark-unavailable updates, no insertion or update occurs
after it, and it is immediately followed either by the batch success
update and the commit or by the rollback; and every successful call
contains exactly one payment event. -/
theorem payment_once_after_claims_before_commit (db : DB) (locked : List Nat)
    (req : BookingRequest) (ref : String) (nid : Nat) (pay : Bool) :
    ((createBookingTr db locked req ref nid pay).2.2.countP isPaymentEv ≤ 1) ∧
    (∀ (pre : List Event) (b : Bool) (post : List Event),
      (createBookingTr db locked req ref nid pay).2.2 = pre ++ Event.payment b :: post →
      pre.countP isInsertEv = req.quantity ∧ pre.countP isMarkEv = req.quantity ∧
      post.countP isInsertEv = 0 ∧ post.countP isMarkEv = 0 ∧
      (post = [Event.markBatchSuccess ref, Event.commitTx] ∨ post = [Event.rollbackTx])) ∧
    ((∃ bs, (createBookingTr db locked req ref nid pay).1 = Except.ok bs) →
      (createBookingTr db locked req ref nid pay).2.2.countP isPaymentEv = 1) := by
  by_cases hge : (getAvailableTickets db.tickets locked req.tier req.quantity).length <
      req.quantity
  · rw [createBookingTr_insufficient db locked req ref nid pay hge]
    refine ⟨by simp [List.countP_cons, isPaymentEv], ?_, ?_⟩
    · intro pre b post heq
      have hcount := congrArg (List.countP isPaymentEv) heq
      simp [List.countP_append, List.countP_cons, isPaymentEv] at hcount
      exact absurd hcount (by omega)
    · rintro ⟨bs, hbs⟩
      simp at hbs
  · rcases hI : insertLoop req.userId ref
        (getAvailableTickets db.tickets locked req.tier req.quantity) db nid with ⟨evs, o⟩
    have hq := selected_length_eq db locked req hge
    have hnp : evs.countP isPaymentEv = 0 := by
      have h0 := insertLoop_countP_payment req.userId ref
        (getAvailableTickets db.tickets locked req.tier req.quantity) db nid
      rw [hI] at h0
      exact h0
    have hne : ∀ e ∈ evs, isPaymentEv e = false := by
      intro e he
      cases hb : isPaymentEv e
      · rfl
      · exact absurd hb (List.countP_eq_zero.mp hnp e he)
    cases o with
    | none =>
      rw [createBookingTr_conflict db locked req ref nid pay evs hge hI]
      refine ⟨?_, ?_, ?_⟩
      · simp [List.countP_cons, List.countP_append, isPaymentEv, hnp]
      · intro pre b post heq
        have hcount := congrArg (List.countP isPaymentEv) heq
        simp [List.countP_append, List.countP_cons, isPaymentEv, hnp] at hcount
        exact absurd hcount (by omega)
      · rintro ⟨bs, hbs⟩
        simp at hbs
    | some p =>
      rcases p with ⟨work, bs0⟩
      obtain ⟨-, -, -, -, -, hci, hcm⟩ :=
        insertLoop_spec req.userId ref _ db nid evs work bs0 hI
      have hE : ∀ e ∈ (Event.beginTx ::
          Event.selectTickets req.tier req.quantity
            (getAvailableTickets db.tickets locked req.tier req.quantity).length ::
          Event.genReference ref :: evs), isPaymentEv e = false := by
        intro e he
        rcases List.mem_cons.mp he with rfl | he
        · rfl
        rcases List.mem_cons.mp he with rfl | he
        · rfl
        rcases List.mem_cons.mp he with rfl | he
        · rfl
        exact hne e he
      have hEci : (Event.beginTx ::
          Event.selectTickets req.tier req.quantity
            (getAvailableTickets db.tickets locked req.tier req.quantity).length ::
          Event.genReference ref :: evs).countP isInsertEv = req.quantity := by
        simp [List.countP_cons, isInsertEv, hci, hq]
      have hEcm : (Event.beginTx ::
          Event.selectTickets req.tier req.quantity
            (getAvailableTickets db.tickets locked req.tier req.quantity).length ::
          Event.genReference ref :: evs).countP isMarkEv = req.quantity := by
        simp [List.countP_cons, isMarkEv, hcm, hq]
      cases pay with
      | true =>
        rw [createBookingTr_paySuccess db locked req ref nid evs work bs0 hge hI]
        refine ⟨?_, ?_, ?_⟩
        · simp [List.countP_cons, List.countP_append, isPaymentEv, hnp]
        · intro pre b post heq
          have heq2 : (Event.beginTx ::
              Event.selectTickets req.tier req.quantity
                (getAvailableTickets db.tickets locked req.tier req.quantity).length ::
              Event.genReference ref :: evs) ++ Event.payment true ::
                [Event.markBatchSuccess ref, Event.commitTx] =
              pre ++ Event.payment b :: post := by
            rw [← heq]
            simp
          have hcount := congrArg (List.countP isPaymentEv) heq2
          simp [List.countP_append, List.countP_cons, isPaymentEv, hnp] at hcount
          have hprez : pre.countP isPaymentEv = 0 := by omega
          have hcpre : ∀ e ∈ pre, isPaymentEv e = false := by
            intro e he
            cases hb : isPaymentEv e
            · rfl
            · exact absurd hb (List.countP_eq_zero.mp hprez e he)
          obtain ⟨h1, -, h3⟩ := eventSplit_unique isPaymentEv _ pre
            (Event.payment true) (Event.payment b) _ post hE hcpre rfl rfl heq2
          subst h1
          subst h3
          refine ⟨hEci, hEcm, by simp [List.countP_cons, isInsertEv],
            by simp [List.countP_cons, isMarkEv], Or.inl rfl⟩
        · intro _
          simp [List.countP_cons, List.countP_append, isPaymentEv, hnp]
      | false =>
        rw [createBookingTr_payFail db locked req ref nid evs work bs0 hge hI]
        refine ⟨?_, ?_, ?_⟩
        · simp [List.countP_cons, List.countP_append, isPaymentEv, hnp]
        · intro pre b post heq
          have heq2 : (Event.beginTx ::
              Event.selectTickets req.tier req.quantity
                (getAvailableTickets db.tickets locked req.tier req.quantity).length ::
              Event.genReference ref :: evs) ++ Event.payment false ::
                [Event.rollbackTx] =
              pre ++ Event.payment b :: post := by
            rw [← heq]
            simp
          have hcount := congrArg (List.countP isPaymentEv) heq2
          simp [List.countP_append, List.countP_cons, isPaymentEv, hnp] at hcount
          have hprez : pre.countP isPaymentEv = 0 := by omega
          have hcpre : ∀ e ∈ pre, isPaymentEv e = false := by
            intro e he
            cases hb : isPaymentEv e
            · rfl
            · exact absurd hb (List.countP_eq_zero.mp hprez e he)
          obtain ⟨h1, -, h3⟩ := eventSplit_unique isPaymentEv _ pre
            (Event.payment false) (Event.payment b) _ post hE hcpre rfl rfl heq2
          subst h1
          subst h3
          refine ⟨hEci, hEcm, by simp [List.countP_cons, isInsertEv],
            by simp [List.countP_cons, isMarkEv], Or.inr rfl⟩
        · rintro ⟨bs, hbs⟩
          simp at hbs

theorem payment_once_after_claims_before_commit_witness :
    (createBookingTr ⟨[⟨1, Tier.GA, 10, true⟩], []⟩ [] ⟨.GA, 1, "u"⟩ "r" 1
      true).2.2.countP isPaymentEv = 1 :=
  (payment_once_after_claims_before_commit ⟨[⟨1, Tier.GA, 10, true⟩], []⟩ [] ⟨.GA, 1, "u"⟩
    "r" 1 true).2.2 ⟨[⟨1, 1, "u", 1, 10, .success, "r"⟩], by decide⟩

theorem maxPrice_const {ts : List Ticket} {p : Nat} (hne : ts ≠ [])
    (h : ∀ t ∈ ts, t.price = p) : maxPrice ts = p := by
  induction ts with
  | nil => exact absurd rfl hne
  | cons t ts ih =>
    show max t.price (maxPrice ts) = p
    cases ts with
    | nil =>
      show max t.price 0 = p
      rw [Nat.max_zero]
      exact h t (List.mem_cons_self t [])
    | cons u us =>
      have hrec : maxPrice (u :: us) = p :=
        ih (by simp) fun x hx => h x (List.mem_cons_of_mem _ hx)
      rw [hrec, h t (List.mem_cons_self t (u :: us))]
      exact Nat.max_self p

/-- C8: the availability report is consistent with the store: for every
tier, the reported `available` equals the number of units of that tier
with `available = true`, the reported `total` equals the number of units
of that tier, and — whenever every unit carries its tier's fixed price —
the reported `price` is that fixed per-unit price. -/
theorem availability_report_consistent (db : DB) (tier : Tier)
    (hprice : ∀ t ∈ db.tickets, t.price = tierPrice t.tier) :
    (getTicketAvailability db tier).available =
      db.tickets.countP (fun t => t.available && t.tier == tier) ∧
    (getTicketAvailability db tier).total =
      db.tickets.countP (fun t => t.tier == tier) ∧
    (getTicketAvailability db tier).price = tierPrice tier := by
  have hff : (db.tickets.filter fun t => t.tier == tier).filter (fun t => t.available) =
      db.tickets.filter fun t => t.available && t.tier == tier :=
    List.filter_filter _ _
  rw [List.countP_eq_length_filter, List.countP_eq_length_filter, ← hff]
  simp only [getTicketAvailability]
  cases hfl : db.tickets.filter fun t => t.tier == tier with
  | nil => simp
  | cons x xs =>
    simp only [List.isEmpty_cons, Bool.false_eq_true, if_false]
    refine ⟨trivial, trivial, ?_⟩
    apply maxPrice_const (by simp)
    intro t ht
    have htm : t ∈ db.tickets.filter fun t => t.tier == tier := by
      rw [hfl]
      exact ht
    have hmem := List.mem_filter.mp htm
    rw [hprice t hmem.1, beq_iff_eq.mp hmem.2]

theorem availability_report_consistent_witness :
    (getTicketAvailability ⟨[⟨1, Tier.GA, 10, true⟩, ⟨2, Tier.GA, 10, false⟩], []⟩
        Tier.GA).available =
      ([⟨1, Tier.GA, 10, true⟩, ⟨2, Tier.GA, 10, false⟩] : List Ticket).countP
        (fun t => t.available && t.tier == Tier.GA) ∧
    (getTicketAvailability ⟨[⟨1, Tier.GA, 10, true⟩, ⟨2, Tier.GA, 10, false⟩], []⟩
        Tier.GA).total =
      ([⟨1, Tier.GA, 10, true⟩, ⟨2, Tier.GA, 10, false⟩] : List Ticket).countP
        (fun t => t.tier == Tier.GA) ∧
    (getTicketAvailability ⟨[⟨1, Tier.GA, 10, true⟩, ⟨2, Tier.GA, 10, false⟩], []⟩
        Tier.GA).price = tierPrice Tier.GA :=
  availability_report_consistent ⟨[⟨1, Tier.GA, 10, true⟩, ⟨2, Tier.GA, 10, false⟩], []⟩
    Tier.GA (by decide)

/-- C9: validation precedes inventory interaction: a request whose tier is
not one of the three valid tiers, or whose quantity is not an integer, is
below 1 or above the per-request ceiling of 100, or whose userId is empty,
is answered 400 by the route, the durable state is untouched, and no
database action happens (createBooking is never reached). -/
theorem invalid_request_rejected_before_inventory (db : DB) (locked : List Nat)
    (raw : RawRequest) (ref : String) (nid : Nat) (pay : Bool)
    (h : (raw.tier ≠ "VIP" ∧ raw.tier ≠ "Front Row" ∧ raw.tier ≠ "GA") ∨
         raw.quantity.den ≠ 1 ∨ raw.quantity.num < 1 ∨ 100 < raw.quantity.num ∨
         raw.userId = "") :
    handlePost db locked raw ref nid pay = (⟨400⟩, db, []) := by
  have hv : validateRequest raw = none := by
    rcases h with ⟨h1, h2, h3⟩ | h
    · have hpt : parseTier raw.tier = none := by
        unfold parseTier
        rw [if_neg (by simpa using h1), if_neg (by simpa using h2), if_neg (by simpa using h3)]
      unfold validateRequest
      rw [hpt]
    · unfold validateRequest
      cases hp : parseTier raw.tier with
      | none => rfl
      | some tier =>
        show (if raw.quantity.den = 1 ∧ 1 ≤ raw.quantity.num ∧ raw.quantity.num ≤ 100 ∧
            raw.userId ≠ "" then
            some (⟨tier, raw.quantity.num.toNat, raw.userId⟩ : BookingRequest) else none) = none
        rw [if_neg]
        rintro ⟨hd, hmin, hmax, hu⟩
        rcases h with h | h | h | h
        · exact h hd
        · omega
        · omega
        · exact hu h
  unfold handlePost
  rw [hv]

theorem invalid_request_rejected_before_inventory_witness :
    handlePost ⟨[⟨1, Tier.GA, 10, true⟩], []⟩ [] ⟨"GA", mkRat 3 2, "u"⟩ "r" 1 true =
      (⟨400⟩, ⟨[⟨1, Tier.GA, 10, true⟩], []⟩, []) :=
  invalid_request_rejected_before_inventory ⟨[⟨1, Tier.GA, 10, true⟩], []⟩ []
    ⟨"GA", mkRat 3 2, "u"⟩ "r" 1 true (Or.inr (Or.inl (by decide)))

/-- C10: the availability report always contains an entry for every tier:
for a tier with no units at all the reported entry is zero available, zero
total, and the hard-coded default price (100 for VIP, 50 for Front Row, 10
for GA). -/
theorem availability_defaults_for_empty_tier (db : DB) (tier : Tier)
    (h : ∀ t ∈ db.tickets, t.tier ≠ tier) :
    getTicketAvailability db tier =
      ⟨0, 0, match tier with | .VIP => 100 | .FrontRow => 50 | .GA => 10⟩ := by
  have hnil : db.tickets.filter (fun t => t.tier == tier) = [] := by
    rw [List.filter_eq_nil_iff]
    intro t ht
    simpa using h t ht
  simp only [getTicketAvailability, hnil]
  cases tier <;> rfl

theorem availability_defaults_for_empty_tier_witness :
    getTicketAvailability ⟨[⟨1, Tier.VIP, 100, true⟩], []⟩ Tier.GA = ⟨0, 0, 10⟩ :=
  availability_defaults_for_empty_tier ⟨[⟨1, Tier.VIP, 100, true⟩], []⟩ Tier.GA (by decide)
